import Mathlib

/-! Collections of the library: store requests and list queries.

A verification development for `pkg/server/library_collection.go`:
the `POST`/`PUT` branch of `handleCollection` (the parent/children
re-linking performed before `StoreItem`) and `handleCollectionList`
(subtree exclusion, parent scope, projection).

The embedding:

* A `*library.Collection` is an address (`Ptr`) into a heap of `Collection`
  objects; `Parent` is an optional address and `Children` the list of the
  addresses held by the slice, in slice order.  Every `Collection` object
  owns its `Children` list (a slice is represented by its elements).
* `server.Library.Collections`, a Go map, is an association list from
  identifier to address; ranging over the map walks that list.
* `time.Now()` is a field of the request.
* `Library.StoreItem` and `parseError` are not in the source file: the error
  the store returns, if any, and the status made of it are parameters of
  `handleCollection`.
* The `for len(collectionStack) > 0` loop of `handleCollectionList` is run
  with an iteration budget; `none` means that the budget ran out with the
  loop condition still true.
-/

namespace Facette

/-- Address of a `library.Collection` object. -/
abbrev Ptr := Nat

/-- Modelled from the spec: the declaration of `library.Collection` (with its
embedded `library.Item`) is not part of the source file; these are the fields
the handlers read and write (section 3 of the specification: identifier, name,
description, last-modified, parent, children) together with `ParentID`, which
`handleCollection` assigns. -/
structure Collection where
  ID : String
  Name : String
  Description : String
  Modified : Nat
  Parent : Option Ptr
  ParentID : String
  Children : List Ptr
deriving DecidableEq, Repr

/-- The zero value of `library.Collection`. -/
def Collection.zero : Collection :=
  { ID := "", Name := "", Description := "", Modified := 0,
    Parent := none, ParentID := "", Children := [] }

/-- The objects allocated so far; the object at address `p` is the `p`-th. -/
abbrev Heap := List Collection

/-- Dereference `*p`. -/
def deref (h : Heap) (p : Ptr) : Collection := h.getD p Collection.zero

/-- Assignment through a pointer, `*p = c`. -/
def assign (h : Heap) (p : Ptr) (c : Collection) : Heap := h.set p c

/-- The state behind `server.Library`: the objects and the
`Collections` map from identifier to object. -/
structure Library where
  heap : Heap
  Collections : List (String × Ptr)
deriving DecidableEq, Repr

/-- Modelled from the spec: `Library.GetItem` for the collection kind is not in
the source file; section 4.1: `get(id, kind) → item | NotFound`, a lookup of the
identifier.  `some p` is a non-nil item with a nil error, `none` is a nil item
with a not-found error. -/
def GetItem (lib : Library) (id : String) : Option Ptr := lib.Collections.lookup id

/-! ## `handleCollectionList` -/

/-- The form values `handleCollectionList` reads. -/
structure ListRequest where
  exclude : String
  parent : String
  filter : String
deriving DecidableEq, Repr

/-- `CollectionResponse` with the fields of the embedded `ItemResponse`. -/
structure CollectionResponse where
  ID : String
  Name : String
  Description : String
  Modified : Nat
  Parent : Option String
  HasChildren : Bool
deriving DecidableEq, Repr

/-- `set.Add` of the `fatih/set` package on a set of identifiers. -/
def setAdd (s : List String) (id : String) : List String :=
  if s.contains id then s else s ++ [id]

/-- `set.Has`. -/
def setHas (s : List String) (id : String) : Bool := s.contains id

/-- One run of the body of the loop at lines 203-207, on the variables of the
enclosing scope: `collectionStack` (declared at line 196) and `excludeSet`.
Line 204 declares, with `:=`, a `collection` and a second `collectionStack`
that live in the body only; line 206 appends to that second variable.  The
body returns the enclosing `collectionStack` as it received it. -/
def excludeBody (lib : Library) (collectionStack : List Ptr) (excludeSet : List String) :
    List Ptr × List String :=
  match collectionStack with
  | [] => (collectionStack, excludeSet)
  | collection :: tail =>
    let inner := tail
    let excludeSet := setAdd excludeSet (deref lib.heap collection).ID
    let _inner := inner ++ (deref lib.heap collection).Children
    (collectionStack, excludeSet)

/-- The loop `for len(collectionStack) > 0 { ... }` with a budget of
iterations: `some excludeSet` when the condition becomes false, `none` when the
budget is used up first. -/
def excludeLoop (lib : Library) : Nat → List Ptr → List String → Option (List String)
  | _, [], excludeSet => some excludeSet
  | 0, _ :: _, _ => none
  | fuel + 1, c :: cs, excludeSet =>
    excludeLoop lib fuel (excludeBody lib (c :: cs) excludeSet).1
      (excludeBody lib (c :: cs) excludeSet).2

/-- Lines 193-208: the exclusion set of a request. -/
def computeExcludeSet (lib : Library) (fuel : Nat) (req : ListRequest) : Option (List String) :=
  if req.exclude ≠ "" then
    let collectionStack : List Ptr :=
      match GetItem lib req.exclude with
      | some item => [item]
      | none => []
    excludeLoop lib fuel collectionStack []
  else some []

/-- The condition of the `if` at lines 214-216, under which the collection is
skipped. -/
def parentSkip (lib : Library) (req : ListRequest) (collection : Ptr) : Bool :=
  let c := deref lib.heap collection
  req.parent != "" &&
    ((req.parent == "" && c.Parent.isSome) ||
     (req.parent != "" &&
       (c.Parent.isNone ||
        (match c.Parent with
         | some p => (deref lib.heap p).ID != req.parent
         | none => false))))

/-- Lines 229-238: the response item of a collection. -/
def collectionItem (lib : Library) (collection : Ptr) : CollectionResponse :=
  let c := deref lib.heap collection
  { ID := c.ID, Name := c.Name, Description := c.Description, Modified := c.Modified,
    HasChildren := decide (c.Children.length > 0),
    Parent := c.Parent.map fun p => (deref lib.heap p).ID }

/-- Lines 211-241: the loop over `server.Library.Collections`; `filterMatch` is
`utils.FilterMatch`, which is not in the source file. -/
def fillResponse (filterMatch : String → String → Bool) (lib : Library) (req : ListRequest)
    (excludeSet : List String) : List (String × Ptr) → List CollectionResponse
  | [] => []
  | (_, collection) :: rest =>
    if parentSkip lib req collection then
      fillResponse filterMatch lib req excludeSet rest
    else if req.filter != "" &&
        !filterMatch req.filter (deref lib.heap collection).Name then
      fillResponse filterMatch lib req excludeSet rest
    else if setHas excludeSet (deref lib.heap collection).ID then
      fillResponse filterMatch lib req excludeSet rest
    else
      collectionItem lib collection :: fillResponse filterMatch lib req excludeSet rest

/-- The body of `handleCollectionList` from line 193 on: the list handed to
`applyCollectionListResponse` and `handleResponse`, or `none` when the
exclusion loop has not finished within the budget. -/
def handleCollectionList (filterMatch : String → String → Bool) (lib : Library) (fuel : Nat)
    (req : ListRequest) : Option (List CollectionResponse) :=
  match computeExcludeSet lib fuel req with
  | none => none
  | some excludeSet => some (fillResponse filterMatch lib req excludeSet lib.Collections)

/-! ## `handleCollection`, `POST` and `PUT` -/

/-- Modelled from the spec: the declaration of `library.Collection` and its JSON
tags are not in the source file; section 6: a decoded payload carrying item
fields (identifier, name, description, last-modified) plus a `parent`
identifier string, and
section 4.2 step 4: the submitted payload's view of `children`.  A field that
the body leaves out is `none`.  `ID` is the exported `ID` of the embedded
`library.Item`, which the decoder can overwrite; `Parent` is the
`Parent string` of `tmpCollection`. -/
structure Payload where
  ID : Option String
  Name : Option String
  Description : Option String
  Modified : Option Nat
  Children : Option (List Ptr)
  Parent : String
deriving DecidableEq, Repr

/-- What `json.Unmarshal(body, &collectionTemp)` at line 126 makes of the request
body: `malformed` when it returns an error; `null` for the JSON value
`null`, which sets the pointer `collectionTemp` to nil; `object` for a JSON
object, decoded into the fields of `collectionTemp`. -/
inductive Body where
  | malformed
  | null
  | object (payload : Payload)
deriving DecidableEq, Repr

/-- What a store request carries: method, identifier taken from the path, the
`inherit` form value, the value of `time.Now()`, the body and the identifier
the store would assign to a collection that has none. -/
structure StoreRequest where
  Method : String
  collectionID : String
  inherit : String
  now : Nat
  body : Body
  newID : String
deriving DecidableEq, Repr

/-- `json.Unmarshal(body, &collectionTemp)` on the embedded collection, for a
body that is a JSON object: the fields the body names are overwritten, the
identifier among them. -/
def unmarshal (c : Collection) (b : Payload) : Collection :=
  { c with ID := b.ID.getD c.ID,
           Name := b.Name.getD c.Name,
           Description := b.Description.getD c.Description,
           Modified := b.Modified.getD c.Modified,
           Children := b.Children.getD c.Children }

/-- `reflect.DeepEqual` on two `*library.Collection`: pointer values are deeply
equal when they are equal with `==` or when they point to deeply equal values;
`deepValueEqual` is the comparison of the pointed values. -/
def DeepEqual (deepValueEqual : Heap → Ptr → Ptr → Bool) (h : Heap) (x y : Ptr) : Bool :=
  x == y || deepValueEqual h x y

/-- The loop of lines 147-153 over `collection.Parent.Children`: the slice
without the first child for which the test holds (`break` after the removal),
the slice itself when there is none. -/
def detachLoop (test : Ptr → Bool) : List Ptr → List Ptr
  | [] => []
  | child :: rest => if test child then rest else child :: detachLoop test rest

/-- Outcome of the part of the handler that runs before `StoreItem`: a
response with an error status, a nil pointer dereference (`panic`), or the
call of `StoreItem`. -/
inductive Prepared where
  | respond (status : Nat)
  | panic
  | ready (lib : Library) (collectionTemp : Ptr)
deriving DecidableEq, Repr

/-- Lines 98-119: `collectionTemp` is allocated with the identifier of the path;
for a `POST` with an `inherit` value it receives a copy of the source, with an
empty `ID` and nil `Children`.  The new object has the first free address. -/
def inheritStep (lib : Library) (req : StoreRequest) : Prepared :=
  let collectionTemp : Ptr := lib.heap.length
  let fresh : Collection := { Collection.zero with ID := req.collectionID }
  if req.Method == "POST" && req.inherit != "" then
    match GetItem lib req.inherit with
    | none => Prepared.respond 404
    | some item =>
      let copy := deref (lib.heap ++ [fresh]) item
      let copy := { copy with ID := "" }
      let copy := { copy with Children := [] }
      Prepared.ready { lib with heap := lib.heap ++ [copy] } collectionTemp
  else
    Prepared.ready { lib with heap := lib.heap ++ [fresh] } collectionTemp

/-- Lines 132-156, "Update parent relation". -/
def updateParentRelation (deepValueEqual : Heap → Ptr → Ptr → Bool) (lib : Library)
    (collectionTemp : Ptr) (parent : String) : Library :=
  match GetItem lib parent with
  | some collection =>
    let h1 := assign lib.heap collectionTemp
      { deref lib.heap collectionTemp with Parent := some collection }
    let h2 := assign h1 collectionTemp
      { deref h1 collectionTemp with ParentID := (deref h1 collection).ID }
    let h3 := assign h2 collection
      { deref h2 collection with
        Children := (deref h2 collection).Children ++ [collectionTemp] }
    { lib with heap := h3 }
  | none =>
    match GetItem lib (deref lib.heap collectionTemp).ID with
    | some collection =>
      match (deref lib.heap collection).Parent with
      | some parent =>
        let children := detachLoop
          (fun child => DeepEqual deepValueEqual lib.heap child collection)
          (deref lib.heap parent).Children
        let h1 := assign lib.heap parent { deref lib.heap parent with Children := children }
        { lib with heap := h1 }
      | none => lib
    | none => lib

/-- Lines 158-161, "Keep current children list": the new version receives the
elements of the stored slice (the two slice headers then share one backing
array, which a list of elements does not represent). -/
def keepChildren (lib : Library) (collectionTemp : Ptr) : Library :=
  match GetItem lib (deref lib.heap collectionTemp).ID with
  | some item =>
    let h1 := assign lib.heap collectionTemp
      { deref lib.heap collectionTemp with Children := (deref lib.heap item).Children }
    { lib with heap := h1 }
  | none => lib

/-- Lines 98-161: everything `handleCollection` does for a `POST` or `PUT`
before it calls `StoreItem`; `ready lib p` is the state in which
`StoreItem` is called and the collection handed to it.  After a body
`null` the pointer `collectionTemp` is nil and line 133, which reads
`collectionTemp.Parent`, panics; nothing in the library has been written
by then. -/
def prepareStore (deepValueEqual : Heap → Ptr → Ptr → Bool) (lib : Library)
    (req : StoreRequest) : Prepared :=
  match inheritStep lib req with
  | Prepared.respond status => Prepared.respond status
  | Prepared.panic => Prepared.panic
  | Prepared.ready lib1 collectionTemp =>
    let h2 := assign lib1.heap collectionTemp
      { deref lib1.heap collectionTemp with Modified := req.now }
    let lib2 : Library := { lib1 with heap := h2 }
    match req.body with
    | Body.malformed => Prepared.respond 400
    | Body.null => Prepared.panic
    | Body.object body =>
      let h3 := assign lib2.heap collectionTemp (unmarshal (deref lib2.heap collectionTemp) body)
      let lib3 : Library := { lib2 with heap := h3 }
      let lib4 := updateParentRelation deepValueEqual lib3 collectionTemp body.Parent
      Prepared.ready (keepChildren lib4 collectionTemp) collectionTemp

/-- Go map assignment `m[id] = p`. -/
def mapStore : List (String × Ptr) → String → Ptr → List (String × Ptr)
  | [], id, p => [(id, p)]
  | (k, v) :: rest, id, p =>
    if k == id then (k, p) :: rest else (k, v) :: mapStore rest id p

/-- The error kinds of section 7 that the store returns. -/
inductive StoreError where
  | ValidationError
  | IOError
deriving DecidableEq, Repr

/-- Modelled from the spec: `Library.StoreItem` is not in the source file;
section 4.1: `store(item, kind) → id | ValidationError | IOError`; if the
identifier is empty a new one is assigned, otherwise the entry with that
identifier is overwritten; `modified` is set to the current time.  The
conditions under which the store refuses an item are not in the source file:
`storeCheck` gives the error, if any, for the library and the item, and a
refused store writes nothing. -/
def StoreItem (storeCheck : Library → Ptr → Option StoreError) (lib : Library) (item : Ptr)
    (newID : String) (now : Nat) : Except StoreError Library :=
  match storeCheck lib item with
  | some err => Except.error err
  | none =>
    let c := deref lib.heap item
    let id := if c.ID == "" then newID else c.ID
    Except.ok
      { heap := assign lib.heap item { c with ID := id, Modified := now },
        Collections := mapStore lib.Collections id item }

/-- Status and library after a request; the status is `none` when the handler
panics before it writes a response. -/
structure Handled where
  status : Option Nat
  lib : Library
deriving DecidableEq, Repr

/-- The `POST`/`PUT` case of `handleCollection` from line 98 on.
`parseError`, which is not in the source file, turns the error of
`StoreItem` (or its absence) into a status; lines 165-169 answer with that
status when it is not 200, and the library is then left as the lines before
`StoreItem` have made it. -/
def handleCollection (storeCheck : Library → Ptr → Option StoreError)
    (parseError : Option StoreError → Nat) (deepValueEqual : Heap → Ptr → Ptr → Bool)
    (lib : Library) (req : StoreRequest) : Handled :=
  match prepareStore deepValueEqual lib req with
  | Prepared.respond status => { status := some status, lib := lib }
  | Prepared.panic => { status := none, lib := lib }
  | Prepared.ready lib1 collectionTemp =>
    match StoreItem storeCheck lib1 collectionTemp req.newID req.now with
    | Except.error err =>
      if parseError (some err) != 200 then
        { status := some (parseError (some err)), lib := lib1 }
      else
        { status := some (if req.Method == "POST" then 201 else 200), lib := lib1 }
    | Except.ok lib2 =>
      if parseError none != 200 then
        { status := some (parseError none), lib := lib2 }
      else
        { status := some (if req.Method == "POST" then 201 else 200), lib := lib2 }

/-- A sequence of store requests, from the left. -/
def handleAll (storeCheck : Library → Ptr → Option StoreError)
    (parseError : Option StoreError → Nat) (deepValueEqual : Heap → Ptr → Ptr → Bool)
    (lib : Library) : List StoreRequest → Library
  | [] => lib
  | req :: rest =>
    handleAll storeCheck parseError deepValueEqual
      (handleCollection storeCheck parseError deepValueEqual lib req).lib rest

/-- In a well-formed library every `Parent` pointer leads to an object that was
allocated earlier, and every entry of `Collections` is an allocated object. -/
def WellFormed (lib : Library) : Prop :=
  (∀ p q, (deref lib.heap p).Parent = some q → q < p) ∧
  (∀ id p, GetItem lib id = some p → p < lib.heap.length)

/-- A store that accepts every item. -/
def acceptAll : Library → Ptr → Option StoreError := fun _ _ => none

/-- A store that refuses every item with a validation error. -/
def refuseAll : Library → Ptr → Option StoreError :=
  fun _ _ => some StoreError.ValidationError

/-- A `parseError` for the examples: 200 without error, 400 for a validation
error, 500 for an input/output error. -/
def parseErrorStd : Option StoreError → Nat
  | none => 200
  | some StoreError.ValidationError => 400
  | some StoreError.IOError => 500

/-- The library with no collection. -/
def emptyLibrary : Library := { heap := [], Collections := [] }

/-- Pointer comparison alone: no two distinct objects are deeply equal. -/
def ptrOnly : Heap → Ptr → Ptr → Bool := fun _ _ _ => false

/-- A `POST` that creates a collection. -/
def post (name parent newID : String) (now : Nat) : StoreRequest :=
  { Method := "POST", collectionID := "", inherit := "", now := now, newID := newID,
    body := Body.object { ID := none, Name := some name, Description := none,
                          Modified := none, Children := none, Parent := parent } }

/-- A `PUT` on a stored collection. -/
def put (id name parent : String) (now : Nat) : StoreRequest :=
  { Method := "PUT", collectionID := id, inherit := "", now := now, newID := "",
    body := Body.object { ID := none, Name := some name, Description := none,
                          Modified := none, Children := none, Parent := parent } }

/-- A `POST` with an `inherit` value and a body that names no parent. -/
def postInherit (source name newID : String) (now : Nat) : StoreRequest :=
  { Method := "POST", collectionID := "", inherit := source, now := now, newID := newID,
    body := Body.object { ID := none, Name := some name, Description := none,
                          Modified := none, Children := none, Parent := "" } }

/-- A `PUT` with the given body. -/
def putBody (id : String) (body : Body) (now : Nat) : StoreRequest :=
  { Method := "PUT", collectionID := id, inherit := "", now := now, newID := "", body := body }

/-- A body that repeats the identifier `B` and holds a name, a description, a
modification time and a list of children. -/
def renameB : Payload :=
  { ID := some "B", Name := some "Renamed", Description := some "d", Modified := some 9,
    Children := some [0, 1], Parent := "" }

/-- A body that carries the identifier `zzz` and no parent. -/
def otherID : Payload :=
  { ID := some "zzz", Name := some "R", Description := none, Modified := none,
    Children := none, Parent := "" }

/-- Root `R` with children `A` and `B`, and `C` a child of `B`. -/
def treeRABC : Library :=
  handleAll acceptAll parseErrorStd ptrOnly emptyLibrary
    [post "R" "" "R" 1, post "A" "R" "A" 2, post "B" "R" "B" 3, post "C" "B" "C" 4]

/-- Collection `P` and its child `S`. -/
def parentAndChild : Library :=
  handleAll acceptAll parseErrorStd ptrOnly emptyLibrary [post "Home" "" "P" 1, post "Team" "P" "S" 2]

/-- Collections `P1` and `P2`, and `c` a child of `P1`. -/
def twoParents : Library :=
  handleAll acceptAll parseErrorStd ptrOnly emptyLibrary
    [post "First" "" "P1" 1, post "Second" "" "P2" 2, post "Team" "P1" "c" 3]

/-- A single collection `c`. -/
def single : Library :=
  handleAll acceptAll parseErrorStd ptrOnly emptyLibrary [post "Home" "" "c" 1]

/-! ## Lemmas on the heap -/

theorem deref_append_left (h : Heap) (c : Collection) (p : Ptr) (hp : p < h.length) :
    deref (h ++ [c]) p = deref h p := by
  simp [deref, List.getD_eq_getElem?_getD, List.getElem?_append_left hp]

theorem deref_append_length (h : Heap) (c : Collection) :
    deref (h ++ [c]) h.length = c := by
  simp [deref, List.getD_eq_getElem?_getD]

theorem deref_assign_ne (h : Heap) (p q : Ptr) (c : Collection) (hpq : p ≠ q) :
    deref (assign h p c) q = deref h q := by
  simp [deref, assign, List.getD_eq_getElem?_getD, List.getElem?_set_ne hpq]

theorem deref_assign_eq (h : Heap) (p : Ptr) (c : Collection) (hp : p < h.length) :
    deref (assign h p c) p = c := by
  simp [deref, assign, List.getD_eq_getElem?_getD, hp]

theorem length_assign (h : Heap) (p : Ptr) (c : Collection) :
    (assign h p c).length = h.length := by
  simp [assign]

/-! ## The exclusion loop -/

theorem excludeBody_fst (lib : Library) (stack : List Ptr) (ex : List String) :
    (excludeBody lib stack ex).1 = stack := by
  cases stack <;> rfl

theorem excludeLoop_cons (lib : Library) (fuel : Nat) (c : Ptr) (cs : List Ptr)
    (ex : List String) : excludeLoop lib fuel (c :: cs) ex = none := by
  induction fuel generalizing ex with
  | zero => rfl
  | succ n ih =>
    rw [excludeLoop, excludeBody_fst]
    exact ih _

theorem fillResponse_exclude_irrelevant (fm : String → String → Bool) (lib : Library)
    (req : ListRequest) (e : String) (ex : List String) (l : List (String × Ptr)) :
    fillResponse fm lib { req with exclude := e } ex l = fillResponse fm lib req ex l := by
  induction l with
  | nil => rfl
  | cons x rest ih =>
    obtain ⟨k, p⟩ := x
    simp only [fillResponse, ih]
    rfl

/-- C4: on the tree with root `R`, children `A` and `B`, and `C` a child of `B`,
a list request with `exclude=R`, and one with `exclude=B`, produces no
response: whatever the number of iterations allowed to the exclusion loop, the
loop is still running. -/
theorem exclude_root_no_response (fm : String → String → Bool) (fuel : Nat) :
    GetItem treeRABC "R" = some 0 ∧
    handleCollectionList fm treeRABC fuel
      { exclude := "R", parent := "", filter := "" } = none ∧
    GetItem treeRABC "B" = some 2 ∧
    handleCollectionList fm treeRABC fuel
      { exclude := "B", parent := "", filter := "" } = none := by
  have hg : GetItem treeRABC "R" = some 0 := by decide
  have hb : GetItem treeRABC "B" = some 2 := by decide
  refine ⟨hg, ?_, hb, ?_⟩
  · have h : computeExcludeSet treeRABC fuel
        { exclude := "R", parent := "", filter := "" } = none := by
      simp [computeExcludeSet, hg, excludeLoop_cons]
    simp [handleCollectionList, h]
  · have h : computeExcludeSet treeRABC fuel
        { exclude := "B", parent := "", filter := "" } = none := by
      simp [computeExcludeSet, hb, excludeLoop_cons]
    simp [handleCollectionList, h]

/-- C5: when the `exclude` identifier resolves to a collection, the queue loop
of `handleCollectionList` does not terminate: for every number of iterations
the enclosing `collectionStack` still holds the excluded collection and the
loop condition is still true, so no exclusion set is ever produced. -/
theorem exclude_loop_never_ends (lib : Library) (req : ListRequest) (item : Ptr)
    (hex : req.exclude ≠ "") (hget : GetItem lib req.exclude = some item) (fuel : Nat) :
    computeExcludeSet lib fuel req = none ∧
    (Nat.iterate (fun st => excludeBody lib st.1 st.2) fuel ([item], [])).1 = [item] := by
  constructor
  · simp [computeExcludeSet, hget, hex, excludeLoop_cons]
  · generalize ([] : List String) = ex
    induction fuel generalizing ex with
    | zero => rfl
    | succ n ih =>
      rw [Function.iterate_succ_apply]
      exact ih (setAdd ex (deref lib.heap item).ID)

theorem exclude_loop_never_ends_witness :
    computeExcludeSet treeRABC 100 { exclude := "B", parent := "", filter := "" }
        = none ∧
    (Nat.iterate (fun st => excludeBody treeRABC st.1 st.2) 100 ([2], [])).1
        = [2] :=
  exclude_loop_never_ends treeRABC { exclude := "B", parent := "", filter := "" } 2
    (by decide) (by rfl) 100

/-- C9: with an empty `parent` form value, which is the only value that can
stand for the root criterion, no collection is skipped by the parent-scope
test: a collection that has a parent passes as well. -/
theorem empty_parent_skips_nothing (lib : Library) (exclude filter : String)
    (collection : Ptr) :
    parentSkip lib { exclude := exclude, parent := "", filter := filter } collection
      = false := by
  simp [parentSkip]

/-- The parent-scope test for a non-empty criterion: a collection passes if and
only if it has a parent whose `ID` is the criterion. -/
theorem parentSkip_criterion (lib : Library) (req : ListRequest) (collection : Ptr)
    (hp : req.parent ≠ "") :
    parentSkip lib req collection = false ↔
      ∃ p, (deref lib.heap collection).Parent = some p ∧
        (deref lib.heap p).ID = req.parent := by
  cases hpar : (deref lib.heap collection).Parent <;> simp [parentSkip, hp, hpar]

/-- C10: a non-empty `exclude` identifier that resolves to no collection gives
an empty exclusion set, for every budget of the loop (it does not run), and
the handler returns the list it returns for the same request with no
`exclude` value. -/
theorem unresolved_exclude_noop (fm : String → String → Bool) (lib : Library) (fuel : Nat)
    (req : ListRequest) (hex : req.exclude ≠ "") (hget : GetItem lib req.exclude = none) :
    computeExcludeSet lib fuel req = some [] ∧
    handleCollectionList fm lib fuel req
      = some (fillResponse fm lib req [] lib.Collections) ∧
    handleCollectionList fm lib fuel req
      = handleCollectionList fm lib fuel { req with exclude := "" } := by
  have h1 : computeExcludeSet lib fuel req = some [] := by
    cases fuel <;> simp [computeExcludeSet, hget, hex, excludeLoop]
  have h2 : computeExcludeSet lib fuel { req with exclude := "" } = some [] := by
    simp [computeExcludeSet]
  refine ⟨h1, ?_, ?_⟩
  · simp [handleCollectionList, h1]
  · simp only [handleCollectionList, h1, h2, fillResponse_exclude_irrelevant]

theorem unresolved_exclude_noop_witness :
    computeExcludeSet treeRABC 0 { exclude := "Z", parent := "", filter := "" }
      = some [] ∧
    handleCollectionList (fun _ _ => true) treeRABC 0
        { exclude := "Z", parent := "", filter := "" }
      = some (fillResponse (fun _ _ => true) treeRABC
          { exclude := "Z", parent := "", filter := "" } [] treeRABC.Collections) ∧
    handleCollectionList (fun _ _ => true) treeRABC 0
        { exclude := "Z", parent := "", filter := "" }
      = handleCollectionList (fun _ _ => true) treeRABC 0
        { exclude := "", parent := "", filter := "" } :=
  unresolved_exclude_noop (fun _ _ => true) treeRABC 0
    { exclude := "Z", parent := "", filter := "" } (by decide) (by decide)

/-! ## Store requests on concrete libraries -/

/-- C1: after creating `P`, creating `S` with parent `P` and creating `n` with
`inherit=S` and no parent in the body, the stored collection `n` has the
parent `P`, and `n` is not in the `Children` of `P` (they hold `S` only).
Besides, after a `PUT` of `S` that names the parent it already has, the
`Children` of `P` hold two entries whose `ID` is `S`. -/
theorem inherit_breaks_parent_children :
    (handleCollection acceptAll parseErrorStd ptrOnly parentAndChild (postInherit "S" "Copy" "n" 3)).status = some 201 ∧
    GetItem (handleCollection acceptAll parseErrorStd ptrOnly parentAndChild (postInherit "S" "Copy" "n" 3)).lib "n"
      = some 2 ∧
    GetItem (handleCollection acceptAll parseErrorStd ptrOnly parentAndChild (postInherit "S" "Copy" "n" 3)).lib "P"
      = some 0 ∧
    (deref (handleCollection acceptAll parseErrorStd ptrOnly parentAndChild (postInherit "S" "Copy" "n" 3)).lib.heap
      2).Parent = some 0 ∧
    (deref (handleCollection acceptAll parseErrorStd ptrOnly parentAndChild (postInherit "S" "Copy" "n" 3)).lib.heap
      0).Children = [1] ∧
    (deref (handleCollection acceptAll parseErrorStd ptrOnly parentAndChild (put "S" "Team" "P" 3)).lib.heap
      0).Children = [1, 2] ∧
    ((deref (handleCollection acceptAll parseErrorStd ptrOnly parentAndChild (put "S" "Team" "P" 3)).lib.heap
      0).Children.map fun p =>
        (deref (handleCollection acceptAll parseErrorStd ptrOnly parentAndChild (put "S" "Team" "P" 3)).lib.heap p).ID)
      = ["S", "S"] := by
  decide

/-- C2, as stated, fails: a `PUT` of the stored collection `c` whose body names
`c` itself as parent is not rejected by the handler, which calls
`StoreItem`; by then the stored version has received a child.  With a store
that refuses the item the answer is an error and the stored version keeps
that child: the library is not left unchanged.  With a store that accepts it
the answer is 200 and the parent of the collection registered under `c`
carries the identifier `c`. -/
theorem self_parent_is_accepted :
    (∃ lib, prepareStore ptrOnly single (put "c" "Home" "c" 2) = Prepared.ready lib 1 ∧
      (deref single.heap 0).Children = [] ∧ (deref lib.heap 0).Children = [1]) ∧
    (handleCollection refuseAll parseErrorStd ptrOnly single (put "c" "Home" "c" 2)).status
      = some 400 ∧
    GetItem (handleCollection refuseAll parseErrorStd ptrOnly single
      (put "c" "Home" "c" 2)).lib "c" = some 0 ∧
    (deref (handleCollection refuseAll parseErrorStd ptrOnly single
      (put "c" "Home" "c" 2)).lib.heap 0).Children = [1] ∧
    (handleCollection acceptAll parseErrorStd ptrOnly single (put "c" "Home" "c" 2)).status
      = some 200 ∧
    GetItem (handleCollection acceptAll parseErrorStd ptrOnly single
      (put "c" "Home" "c" 2)).lib "c" = some 1 ∧
    (deref (handleCollection acceptAll parseErrorStd ptrOnly single
      (put "c" "Home" "c" 2)).lib.heap 1).Parent = some 0 ∧
    (deref (handleCollection acceptAll parseErrorStd ptrOnly single
      (put "c" "Home" "c" 2)).lib.heap 0).ID = "c" ∧
    (deref (handleCollection acceptAll parseErrorStd ptrOnly single
      (put "c" "Home" "c" 2)).lib.heap 1).ParentID = "c" := by
  refine ⟨⟨_, rfl, ?_, ?_⟩, ?_⟩ <;> decide

/-- C3, as stated, fails: `R` is stored with the children `A` and `B` (addresses
1 and 2).  A `PUT` of `R` whose body names `R` itself as parent hands to
`StoreItem` a collection whose `Children` are `A`, `B` and the collection
itself.  A `PUT` of `R` whose body carries another identifier, stored by no
collection, hands to `StoreItem` a collection without `Children`.  A
`PUT` of `R` whose body is `null` hands nothing to `StoreItem`: the handler
panics. -/
theorem update_children_not_kept :
    GetItem treeRABC "R" = some 0 ∧ (deref treeRABC.heap 0).Children = [1, 2] ∧
    (∃ lib, prepareStore ptrOnly treeRABC (put "R" "R" "R" 5) = Prepared.ready lib 4 ∧
      (deref lib.heap 4).Children = [1, 2, 4]) ∧
    (∃ lib, prepareStore ptrOnly treeRABC (putBody "R" (Body.object otherID) 5)
        = Prepared.ready lib 4 ∧
      (deref lib.heap 4).ID = "zzz" ∧ (deref lib.heap 4).Children = []) ∧
    prepareStore ptrOnly treeRABC (putBody "R" Body.null 5) = Prepared.panic := by
  refine ⟨by decide, by decide, ⟨_, rfl, by decide⟩, ⟨_, rfl, by decide, by decide⟩,
    by decide⟩

/-- C6: `c` is stored with parent `P1`; after a `PUT` of `c` whose body names
`P2`, the collection registered under `c` has parent `P2` and is in the
`Children` of `P2`, and the `Children` of `P1` are what they were: the entry
for `c` (the former version, whose `ID` is `c`) is still there. -/
theorem reparent_keeps_former_entry :
    GetItem twoParents "c" = some 2 ∧ (deref twoParents.heap 2).Parent = some 0 ∧
    (deref twoParents.heap 0).Children = [2] ∧
    GetItem (handleCollection acceptAll parseErrorStd ptrOnly twoParents (put "c" "Team" "P2" 4)).lib "c" = some 3 ∧
    (deref (handleCollection acceptAll parseErrorStd ptrOnly twoParents (put "c" "Team" "P2" 4)).lib.heap 3).Parent
      = some 1 ∧
    (deref (handleCollection acceptAll parseErrorStd ptrOnly twoParents (put "c" "Team" "P2" 4)).lib.heap 1).Children
      = [3] ∧
    (deref (handleCollection acceptAll parseErrorStd ptrOnly twoParents (put "c" "Team" "P2" 4)).lib.heap 0).Children
      = [2] ∧
    (deref (handleCollection acceptAll parseErrorStd ptrOnly twoParents (put "c" "Team" "P2" 4)).lib.heap 2).ID
      = "c" := by
  decide

/-- C7: `S` is stored with parent `P`; for a `POST` with `inherit=S` and an empty
parent identifier in the body, the collection handed to `StoreItem` has the
parent `P` (it is not absent), and the `Children` of `P` do not hold it. -/
theorem inherit_keeps_source_parent :
    GetItem parentAndChild "" = none ∧
    ∃ lib, prepareStore ptrOnly parentAndChild (postInherit "S" "Copy" "n" 3)
        = Prepared.ready lib 2 ∧
      (deref lib.heap 2).Parent = some 0 ∧ (deref lib.heap 2).ParentID = "P" ∧
      (deref lib.heap 0).Children = [1] := by
  refine ⟨by decide, _, rfl, by decide, by decide, by decide⟩

/-! ## Store requests in general -/

theorem assign_append_length (h : Heap) (c d : Collection) :
    assign (h ++ [c]) h.length d = h ++ [d] := by
  simp [assign]

theorem deref_assign (h : Heap) (p q : Ptr) (c : Collection) :
    deref (assign h p c) q = if p = q ∧ p < h.length then c else deref h q := by
  by_cases hpq : p = q
  · subst hpq
    by_cases hp : p < h.length
    · simp [hp, deref_assign_eq]
    · have hle : (h.set p c).length ≤ p := by simpa using Nat.le_of_not_lt hp
      have hle2 : h.length ≤ p := Nat.le_of_not_lt hp
      simp [hp, deref, assign, List.getD_eq_getElem?_getD, List.getElem?_eq_none hle,
        List.getElem?_eq_none hle2]
  · simp [hpq, deref_assign_ne]

theorem inheritStep_plain (lib : Library) (req : StoreRequest)
    (hm : (req.Method == "POST" && req.inherit != "") = false) :
    inheritStep lib req =
      Prepared.ready
        { heap := lib.heap ++ [{ Collection.zero with ID := req.collectionID }],
          Collections := lib.Collections }
        lib.heap.length := by
  unfold inheritStep
  rw [hm]
  rfl

/-- The heap in which `StoreItem` is about to be called for a request without
`inherit` copy: the new object, after `Modified` is set and the body is
decoded. -/
theorem prepareStore_plain (dve : Heap → Ptr → Ptr → Bool) (lib : Library)
    (req : StoreRequest) (b : Payload)
    (hm : (req.Method == "POST" && req.inherit != "") = false) (hb : req.body = Body.object b) :
    prepareStore dve lib req =
      Prepared.ready
        (keepChildren
          (updateParentRelation dve
            { heap := lib.heap ++
                [unmarshal { Collection.zero with ID := req.collectionID, Modified := req.now } b],
              Collections := lib.Collections }
            lib.heap.length b.Parent)
          lib.heap.length)
        lib.heap.length := by
  unfold prepareStore
  rw [inheritStep_plain lib req hm]
  simp only [hb, deref_append_length, assign_append_length]

theorem inheritStep_copy (lib : Library) (req : StoreRequest) (S : Ptr)
    (hm : req.Method = "POST") (hi : req.inherit ≠ "")
    (hget : GetItem lib req.inherit = some S) (hS : S < lib.heap.length) :
    inheritStep lib req =
      Prepared.ready
        { heap := lib.heap ++ [{ deref lib.heap S with ID := "", Children := [] }],
          Collections := lib.Collections }
        lib.heap.length := by
  have hc : (req.Method == "POST" && req.inherit != "") = true := by simp [hm, hi]
  unfold inheritStep
  rw [hc]
  simp only [hget, if_true, deref_append_left _ _ _ hS]

/-- C8: for a `POST` whose `inherit` value resolves to the stored collection
`S`, the new collection, once lines 98 to 119 have run, is `S` with an empty
`ID` and no `Children`, every other field being the one of `S`; the objects
that existed before, `S` among them, and the `Collections` map are
unchanged. -/
theorem inherit_copy_fields (lib : Library) (req : StoreRequest) (S : Ptr)
    (hm : req.Method = "POST") (hi : req.inherit ≠ "")
    (hget : GetItem lib req.inherit = some S) (hS : S < lib.heap.length) :
    ∃ lib1, inheritStep lib req = Prepared.ready lib1 lib.heap.length ∧
      deref lib1.heap lib.heap.length =
        { deref lib.heap S with ID := "", Children := [] } ∧
      (∀ p, p < lib.heap.length → deref lib1.heap p = deref lib.heap p) ∧
      deref lib1.heap S = deref lib.heap S ∧
      lib1.Collections = lib.Collections := by
  refine ⟨_, inheritStep_copy lib req S hm hi hget hS, ?_, ?_, ?_, rfl⟩
  · exact deref_append_length _ _
  · intro p hp
    exact deref_append_left _ _ _ hp
  · exact deref_append_left _ _ _ hS

theorem getItem_heap_irrelevant (h : Heap) (m : List (String × Ptr)) (lib : Library)
    (hc : lib.Collections = m) (id : String) :
    GetItem { heap := h, Collections := m } id = GetItem lib id := by
  simp [GetItem, hc]

theorem keepChildren_collections (lib : Library) (t : Ptr) :
    (keepChildren lib t).Collections = lib.Collections := by
  unfold keepChildren
  cases GetItem lib (deref lib.heap t).ID <;> rfl

theorem keepChildren_other (lib : Library) (t q : Ptr) (hq : q ≠ t) :
    deref (keepChildren lib t).heap q = deref lib.heap q := by
  unfold keepChildren
  cases GetItem lib (deref lib.heap t).ID with
  | none => rfl
  | some item => simp [deref_assign, Ne.symm hq]

theorem keepChildren_self (lib : Library) (t : Ptr) (ht : t < lib.heap.length) :
    deref (keepChildren lib t).heap t =
      { deref lib.heap t with
        Children := match GetItem lib (deref lib.heap t).ID with
          | some item => (deref lib.heap item).Children
          | none => (deref lib.heap t).Children } := by
  unfold keepChildren
  cases GetItem lib (deref lib.heap t).ID with
  | none => rfl
  | some item => simp [deref_assign, ht]

theorem updateParentRelation_resolved (dve : Heap → Ptr → Ptr → Bool) (lib : Library)
    (t : Ptr) (parent : String) (P : Ptr) (hget : GetItem lib parent = some P)
    (ht : t < lib.heap.length) (hP : P < lib.heap.length) (hPt : P ≠ t) :
    (updateParentRelation dve lib t parent).Collections = lib.Collections ∧
    deref (updateParentRelation dve lib t parent).heap t =
      { deref lib.heap t with Parent := some P, ParentID := (deref lib.heap P).ID } ∧
    deref (updateParentRelation dve lib t parent).heap P =
      { deref lib.heap P with Children := (deref lib.heap P).Children ++ [t] } ∧
    (updateParentRelation dve lib t parent).heap.length = lib.heap.length ∧
    ∀ q, q ≠ t → q ≠ P → deref (updateParentRelation dve lib t parent).heap q
      = deref lib.heap q := by
  unfold updateParentRelation
  rw [hget]
  refine ⟨rfl, ?_, ?_, ?_, ?_⟩
  · simp [deref_assign, length_assign, ht, hP, hPt, Ne.symm hPt]
  · simp [deref_assign, length_assign, ht, hP, hPt, Ne.symm hPt]
  · simp [length_assign]
  · intro q hq hqP
    simp [deref_assign, length_assign, ht, hP, Ne.symm hq, Ne.symm hqP]

theorem deref_assign_ID (h : Heap) (p q : Ptr) (c : Collection)
    (hc : c.ID = (deref h p).ID) : (deref (assign h p c) q).ID = (deref h q).ID := by
  rw [deref_assign]
  split_ifs with hcond
  · obtain ⟨rfl, _⟩ := hcond
    exact hc
  · rfl

theorem storeItem_ok_deref (sc : Library → Ptr → Option StoreError) (lib lib2 : Library)
    (item q : Ptr) (newID : String) (now : Nat)
    (h : StoreItem sc lib item newID now = Except.ok lib2) (hq : q ≠ item) :
    deref lib2.heap q = deref lib.heap q := by
  unfold StoreItem at h
  cases hsc : sc lib item with
  | some err => rw [hsc] at h; cases h
  | none =>
    rw [hsc] at h
    injection h with h
    rw [← h]
    exact deref_assign_ne _ _ _ _ (Ne.symm hq)

/-- Whatever the store answers, the objects other than the new one are, after
the request, what the lines before `StoreItem` have made of them. -/
theorem handleCollection_ready_deref (sc : Library → Ptr → Option StoreError)
    (pe : Option StoreError → Nat) (dve : Heap → Ptr → Ptr → Bool) (lib lib1 : Library)
    (req : StoreRequest) (t q : Ptr)
    (hprep : prepareStore dve lib req = Prepared.ready lib1 t) (hq : q ≠ t) :
    deref (handleCollection sc pe dve lib req).lib.heap q = deref lib1.heap q := by
  unfold handleCollection
  rw [hprep]
  dsimp only
  split
  · split_ifs <;> rfl
  · next lib2 hst =>
    split_ifs <;> exact storeItem_ok_deref sc lib1 lib2 t q req.newID req.now hst hq

/-- C2, amended: `handleCollection` makes no cycle check.  For a `PUT` whose body
is a JSON object naming a parent identifier that resolves to a collection `P`,
whichever it is (the collection of the request, one of its descendants, or any
other), the handler does not reject the request: it calls `StoreItem` with a
collection that has `Parent = P` and the `ParentID` of `P` and that it has
already appended to the `Children` of `P`; and whether the store then
accepts or refuses the item, that entry is in the `Children` of `P` after
the request. -/
theorem resolved_parent_is_linked (dve : Heap → Ptr → Ptr → Bool) (lib : Library)
    (req : StoreRequest) (b : Payload) (P : Ptr)
    (hm : req.Method = "PUT") (hb : req.body = Body.object b)
    (hget : GetItem lib b.Parent = some P) (hP : P < lib.heap.length) :
    ∃ lib1, prepareStore dve lib req = Prepared.ready lib1 lib.heap.length ∧
      (deref lib1.heap lib.heap.length).Parent = some P ∧
      (deref lib1.heap lib.heap.length).ParentID = (deref lib.heap P).ID ∧
      (deref lib1.heap P).Children = (deref lib.heap P).Children ++ [lib.heap.length] ∧
      ∀ (sc : Library → Ptr → Option StoreError) (pe : Option StoreError → Nat),
        (deref (handleCollection sc pe dve lib req).lib.heap P).Children
          = (deref lib.heap P).Children ++ [lib.heap.length] := by
  have hm1 : (req.Method == "POST" && req.inherit != "") = false := by
    rw [hm]; rfl
  have hprep := prepareStore_plain dve lib req b hm1 hb
  have ht : lib.heap.length < (lib.heap ++
      [unmarshal { Collection.zero with ID := req.collectionID, Modified := req.now } b]).length := by
    simp
  obtain ⟨_, hself, hpar, hlen, _⟩ := updateParentRelation_resolved dve
    { heap := lib.heap ++
        [unmarshal { Collection.zero with ID := req.collectionID, Modified := req.now } b],
      Collections := lib.Collections }
    lib.heap.length b.Parent P hget ht (Nat.lt_trans hP ht) (Nat.ne_of_lt hP)
  have hch : (deref (keepChildren (updateParentRelation dve
      { heap := lib.heap ++
          [unmarshal { Collection.zero with ID := req.collectionID, Modified := req.now } b],
        Collections := lib.Collections }
      lib.heap.length b.Parent) lib.heap.length).heap P).Children
      = (deref lib.heap P).Children ++ [lib.heap.length] := by
    rw [keepChildren_other _ _ _ (Nat.ne_of_lt hP), hpar]
    simp [deref_append_left _ _ _ hP]
  refine ⟨_, hprep, ?_, ?_, hch, ?_⟩
  · rw [keepChildren_self _ _ (by rw [hlen]; exact ht), hself]
  · rw [keepChildren_self _ _ (by rw [hlen]; exact ht), hself]
    simp [deref_append_left _ _ _ hP]
  · intro sc pe
    rw [handleCollection_ready_deref sc pe dve lib _ req _ P hprep (Nat.ne_of_lt hP)]
    exact hch

theorem resolved_parent_is_linked_witness :
    ∃ lib1, prepareStore ptrOnly treeRABC (put "R" "R" "C" 5)
        = Prepared.ready lib1 treeRABC.heap.length ∧
      (deref lib1.heap treeRABC.heap.length).Parent = some 3 ∧
      (deref lib1.heap treeRABC.heap.length).ParentID = (deref treeRABC.heap 3).ID ∧
      (deref lib1.heap 3).Children = (deref treeRABC.heap 3).Children ++ [treeRABC.heap.length] ∧
      ∀ (sc : Library → Ptr → Option StoreError) (pe : Option StoreError → Nat),
        (deref (handleCollection sc pe ptrOnly treeRABC (put "R" "R" "C" 5)).lib.heap 3).Children
          = (deref treeRABC.heap 3).Children ++ [treeRABC.heap.length] :=
  resolved_parent_is_linked ptrOnly treeRABC (put "R" "R" "C" 5)
    { ID := none, Name := some "R", Description := none, Modified := none, Children := none,
      Parent := "C" } 3
    (by decide) (by decide) (by decide) (by decide)

/-! ## Well-formed libraries -/

theorem deref_append (h : Heap) (c : Collection) (p : Ptr) :
    deref (h ++ [c]) p =
      if p < h.length then deref h p else if p = h.length then c else Collection.zero := by
  by_cases h1 : p < h.length
  · simp [h1, deref_append_left]
  · by_cases h2 : p = h.length
    · subst h2
      simp [deref_append_length]
    · have hle : (h ++ [c]).length ≤ p := by
        simp only [List.length_append, List.length_singleton]
        exact Nat.lt_of_le_of_ne (Nat.le_of_not_lt h1) (Ne.symm h2)
      simp [h1, h2, deref, List.getD_eq_getElem?_getD, List.getElem?_eq_none hle]

theorem deref_zero_of_le (h : Heap) (p : Ptr) (hp : h.length ≤ p) :
    deref h p = Collection.zero := by
  simp [deref, List.getD_eq_getElem?_getD, List.getElem?_eq_none hp]

theorem parentsOlder_assign (h : Heap) (p : Ptr) (c : Collection)
    (hwf : ∀ x q, (deref h x).Parent = some q → q < x)
    (hc : ∀ q, c.Parent = some q → q < p) :
    ∀ x q, (deref (assign h p c) x).Parent = some q → q < x := by
  intro x q hq
  rw [deref_assign] at hq
  split_ifs at hq with hcond
  · obtain ⟨rfl, _⟩ := hcond
    exact hc q hq
  · exact hwf x q hq

theorem parentsOlder_assign_same (h : Heap) (p : Ptr) (c : Collection)
    (hwf : ∀ x q, (deref h x).Parent = some q → q < x)
    (hc : c.Parent = (deref h p).Parent) :
    ∀ x q, (deref (assign h p c) x).Parent = some q → q < x :=
  parentsOlder_assign h p c hwf (fun q hq => hwf p q (by rw [← hc]; exact hq))

theorem parentsOlder_append (h : Heap) (c : Collection)
    (hwf : ∀ x q, (deref h x).Parent = some q → q < x)
    (hc : ∀ q, c.Parent = some q → q < h.length) :
    ∀ x q, (deref (h ++ [c]) x).Parent = some q → q < x := by
  intro x q hq
  rw [deref_append] at hq
  split_ifs at hq with h1 h2
  · exact hwf x q hq
  · subst h2
    exact hc q hq
  · cases hq

theorem inheritStep_ready (lib lib1 : Library) (req : StoreRequest) (t : Ptr)
    (hwf : WellFormed lib) (h : inheritStep lib req = Prepared.ready lib1 t) :
    t = lib.heap.length ∧ lib1.Collections = lib.Collections ∧
    ∃ c, lib1.heap = lib.heap ++ [c] ∧ ∀ q, c.Parent = some q → q < lib.heap.length := by
  unfold inheritStep at h
  dsimp only at h
  split_ifs at h with hc
  · cases hg : GetItem lib req.inherit with
    | none => rw [hg] at h; cases h
    | some item =>
      rw [hg] at h
      have hlt : item < lib.heap.length := hwf.2 _ _ hg
      injection h with h1 h2
      subst h1
      refine ⟨h2.symm, rfl, _, rfl, ?_⟩
      intro q hq
      have hq1 : (deref lib.heap item).Parent = some q := by
        rw [← deref_append_left lib.heap
          { Collection.zero with ID := req.collectionID } item hlt]
        exact hq
      exact Nat.lt_trans (hwf.1 _ _ hq1) hlt
  · injection h with h1 h2
    subst h1
    exact ⟨h2.symm, rfl, _, rfl, fun q hq => by cases hq⟩

theorem updateParentRelation_parentsOlder (dve : Heap → Ptr → Ptr → Bool) (lib : Library)
    (t : Ptr) (parent : String)
    (hwf : ∀ x q, (deref lib.heap x).Parent = some q → q < x)
    (hmap : ∀ id p, GetItem lib id = some p → p < t) :
    (∀ x q, (deref (updateParentRelation dve lib t parent).heap x).Parent = some q → q < x) ∧
    (updateParentRelation dve lib t parent).Collections = lib.Collections ∧
    (updateParentRelation dve lib t parent).heap.length = lib.heap.length := by
  unfold updateParentRelation
  cases hg : GetItem lib parent with
  | some P =>
    have hPt : P < t := hmap _ _ hg
    refine ⟨?_, rfl, ?_⟩
    · dsimp only
      refine parentsOlder_assign_same _ _ _ ?_ rfl
      refine parentsOlder_assign_same _ _ _ ?_ rfl
      refine parentsOlder_assign _ _ _ hwf ?_
      intro q hq
      cases hq
      exact hPt
    · simp [length_assign]
  | none =>
    dsimp only
    cases hs : GetItem lib (deref lib.heap t).ID with
    | none => exact ⟨hwf, rfl, rfl⟩
    | some s =>
      dsimp only
      cases hp : (deref lib.heap s).Parent with
      | none => exact ⟨hwf, rfl, rfl⟩
      | some pp =>
        refine ⟨?_, rfl, ?_⟩
        · dsimp only
          exact parentsOlder_assign_same _ _ _ hwf rfl
        · simp [length_assign]

theorem keepChildren_parentsOlder (lib : Library) (t : Ptr)
    (hwf : ∀ x q, (deref lib.heap x).Parent = some q → q < x) :
    (∀ x q, (deref (keepChildren lib t).heap x).Parent = some q → q < x) ∧
    (keepChildren lib t).heap.length = lib.heap.length := by
  unfold keepChildren
  cases hg : GetItem lib (deref lib.heap t).ID with
  | none => exact ⟨hwf, rfl⟩
  | some item =>
    refine ⟨?_, ?_⟩
    · dsimp only
      exact parentsOlder_assign_same _ _ _ hwf rfl
    · simp [length_assign]

theorem prepareStore_ready (dve : Heap → Ptr → Ptr → Bool) (lib lib1 : Library)
    (req : StoreRequest) (t : Ptr) (hwf : WellFormed lib)
    (h : prepareStore dve lib req = Prepared.ready lib1 t) :
    (∀ x q, (deref lib1.heap x).Parent = some q → q < x) ∧
    lib1.Collections = lib.Collections ∧
    lib1.heap.length = lib.heap.length + 1 ∧ t = lib.heap.length := by
  unfold prepareStore at h
  cases hi : inheritStep lib req with
  | respond status => rw [hi] at h; cases h
  | panic => rw [hi] at h; cases h
  | ready libA tA =>
    rw [hi] at h
    obtain ⟨htA, hcA, c, hheap, hc⟩ := inheritStep_ready lib libA req tA hwf hi
    dsimp only at h
    cases hb : req.body with
    | malformed => rw [hb] at h; cases h
    | null => rw [hb] at h; cases h
    | object b =>
      rw [hb] at h
      dsimp only at h
      injection h with h1 h2
      subst h1
      subst h2
      have hA : ∀ x q, (deref libA.heap x).Parent = some q → q < x := by
        rw [hheap]
        exact parentsOlder_append lib.heap c hwf.1 hc
      have h2 := parentsOlder_assign_same libA.heap tA
        { deref libA.heap tA with Modified := req.now } hA rfl
      have h3 := parentsOlder_assign_same _ tA
        (unmarshal (deref (assign libA.heap tA
          { deref libA.heap tA with Modified := req.now }) tA) b) h2 rfl
      have hmap : ∀ id p, GetItem
          { heap := assign (assign libA.heap tA
              { deref libA.heap tA with Modified := req.now }) tA
              (unmarshal (deref (assign libA.heap tA
                { deref libA.heap tA with Modified := req.now }) tA) b),
            Collections := libA.Collections } id = some p → p < tA := by
        intro id p hp
        rw [htA]
        apply hwf.2 id p
        unfold GetItem at hp ⊢
        rw [← hcA]
        exact hp
      obtain ⟨hU, hUc, hUl⟩ := updateParentRelation_parentsOlder dve _ tA b.Parent h3 hmap
      obtain ⟨hK, hKl⟩ := keepChildren_parentsOlder _ tA hU
      refine ⟨hK, ?_, ?_, htA⟩
      · rw [keepChildren_collections, hUc]
        exact hcA
      · rw [hKl, hUl]
        simp [length_assign, hheap]

theorem lookup_mapStore (m : List (String × Ptr)) (id k : String) (p : Ptr) :
    (mapStore m id p).lookup k = if k = id then some p else m.lookup k := by
  induction m with
  | nil =>
    by_cases hk : k = id
    · simp [mapStore, List.lookup, hk]
    · have hkb : (k == id) = false := by simpa using hk
      simp [mapStore, List.lookup, hk, hkb]
  | cons e rest ih =>
    obtain ⟨a, v⟩ := e
    by_cases ha : a = id
    · subst ha
      by_cases hk : k = a
      · simp [mapStore, List.lookup, hk]
      · have hkb : (k == a) = false := by simpa using hk
        simp [mapStore, List.lookup, hk, hkb]
    · by_cases hk : k = a
      · subst hk
        simp [mapStore, List.lookup, ha]
      · have hkb : (k == a) = false := by simpa using hk
        simp [mapStore, List.lookup, ha, hkb, ih]

theorem storeItem_wellFormed (sc : Library → Ptr → Option StoreError) (lib lib2 : Library)
    (item : Ptr) (newID : String) (now : Nat)
    (hpar : ∀ x q, (deref lib.heap x).Parent = some q → q < x)
    (hmap : ∀ id p, GetItem lib id = some p → p < lib.heap.length)
    (hitem : item < lib.heap.length)
    (h : StoreItem sc lib item newID now = Except.ok lib2) : WellFormed lib2 := by
  unfold StoreItem at h
  cases hsc : sc lib item with
  | some err => rw [hsc] at h; cases h
  | none =>
    rw [hsc] at h
    injection h with h
    rw [← h]
    refine ⟨?_, ?_⟩
    · exact parentsOlder_assign_same _ _ _ hpar rfl
    · intro id p hp
      have hp1 : (mapStore lib.Collections
          (if (deref lib.heap item).ID == "" then newID else (deref lib.heap item).ID)
          item).lookup id = some p := hp
      rw [lookup_mapStore] at hp1
      show p < (assign lib.heap item _).length
      rw [length_assign]
      by_cases hk : id = (if (deref lib.heap item).ID == "" then newID
          else (deref lib.heap item).ID)
      · rw [if_pos hk] at hp1
        injection hp1 with hp2
        rw [← hp2]
        exact hitem
      · rw [if_neg hk] at hp1
        exact hmap id p hp1

theorem handleCollection_wellFormed (sc : Library → Ptr → Option StoreError)
    (pe : Option StoreError → Nat) (dve : Heap → Ptr → Ptr → Bool) (lib : Library)
    (req : StoreRequest) (hwf : WellFormed lib) :
    WellFormed (handleCollection sc pe dve lib req).lib := by
  unfold handleCollection
  cases hprep : prepareStore dve lib req with
  | respond status => exact hwf
  | panic => exact hwf
  | ready lib1 t =>
    obtain ⟨hpar, hcol, hlen, ht⟩ := prepareStore_ready dve lib lib1 req t hwf hprep
    have hmap : ∀ id p, GetItem lib1 id = some p → p < lib1.heap.length := by
      intro id p hp
      have hp1 : GetItem lib id = some p := by
        unfold GetItem at hp ⊢
        rw [← hcol]
        exact hp
      rw [hlen]
      exact Nat.lt_succ_of_lt (hwf.2 id p hp1)
    have hitem : t < lib1.heap.length := by
      rw [hlen, ht]
      exact Nat.lt_succ_self _
    dsimp only
    split
    · split_ifs <;> exact ⟨hpar, hmap⟩
    · next lib2 hst =>
      split_ifs <;>
        exact storeItem_wellFormed sc lib1 lib2 t req.newID req.now hpar hmap hitem hst

theorem handleAll_wellFormed (sc : Library → Ptr → Option StoreError)
    (pe : Option StoreError → Nat) (dve : Heap → Ptr → Ptr → Bool) (lib : Library)
    (reqs : List StoreRequest) (hwf : WellFormed lib) :
    WellFormed (handleAll sc pe dve lib reqs) := by
  induction reqs generalizing lib with
  | nil => exact hwf
  | cons req rest ih =>
    exact ih _ (handleCollection_wellFormed sc pe dve lib req hwf)

theorem emptyLibrary_wellFormed : WellFormed emptyLibrary := by
  refine ⟨?_, ?_⟩
  · intro p q hq
    rw [deref_zero_of_le _ _ (Nat.zero_le _)] at hq
    cases hq
  · intro id p hp
    cases hp

/-- Every library reached from the empty one by store requests, whatever the
store answers, is well formed. -/
theorem reachable_wellFormed (sc : Library → Ptr → Option StoreError)
    (pe : Option StoreError → Nat) (dve : Heap → Ptr → Ptr → Bool)
    (reqs : List StoreRequest) : WellFormed (handleAll sc pe dve emptyLibrary reqs) :=
  handleAll_wellFormed sc pe dve emptyLibrary reqs emptyLibrary_wellFormed

theorem updateParentRelation_keeps (dve : Heap → Ptr → Ptr → Bool) (lib : Library)
    (t s : Ptr) (parent : String) (hst : s ≠ t)
    (hs : GetItem lib (deref lib.heap t).ID = some s)
    (hpar : GetItem lib parent ≠ some s)
    (hown : (deref lib.heap s).Parent ≠ some s) :
    (updateParentRelation dve lib t parent).Collections = lib.Collections ∧
    (deref (updateParentRelation dve lib t parent).heap t).ID = (deref lib.heap t).ID ∧
    deref (updateParentRelation dve lib t parent).heap s = deref lib.heap s ∧
    (updateParentRelation dve lib t parent).heap.length = lib.heap.length := by
  unfold updateParentRelation
  cases hg : GetItem lib parent with
  | some P =>
    have hPs : P ≠ s := fun h => hpar (by rw [hg, h])
    refine ⟨rfl, ?_, ?_, ?_⟩
    · dsimp only
      refine Eq.trans (deref_assign_ID _ _ _ _ ?_) ?_
      · rfl
      refine Eq.trans (deref_assign_ID _ _ _ _ ?_) ?_
      · rfl
      refine deref_assign_ID _ _ _ _ ?_
      rfl
    · simp [deref_assign, length_assign, hPs, Ne.symm hst]
    · simp [length_assign]
  | none =>
    simp only [hs]
    cases hp : (deref lib.heap s).Parent with
    | none => exact ⟨rfl, rfl, rfl, rfl⟩
    | some pp =>
      have hpps : pp ≠ s := fun h => hown (by rw [hp, h])
      refine ⟨rfl, ?_, ?_, ?_⟩
      · dsimp only
        refine deref_assign_ID _ _ _ _ ?_
        rfl
      · simp [deref_assign, hpps]
      · simp [length_assign]

/-- C3, amended: in a well-formed library (every library built by store requests
is one), for a `PUT` of a stored collection whose body is a JSON object that
carries no identifier other than the one of the path, and whose parent
identifier is empty, unresolved or resolves to another collection than the
stored one, whatever else the body holds, the collection handed to
`StoreItem` has the `Children` of the stored version as they were before the
request, in the same order. -/
theorem children_kept_on_update (dve : Heap → Ptr → Ptr → Bool) (lib : Library)
    (req : StoreRequest) (b : Payload) (s : Ptr)
    (hwf : WellFormed lib)
    (hm : req.Method = "PUT") (hb : req.body = Body.object b)
    (hidb : b.ID = none ∨ b.ID = some req.collectionID)
    (hs : GetItem lib req.collectionID = some s)
    (hpar : GetItem lib b.Parent ≠ some s) :
    ∃ lib1, prepareStore dve lib req = Prepared.ready lib1 lib.heap.length ∧
      (deref lib1.heap lib.heap.length).Children = (deref lib.heap s).Children := by
  have hlt : s < lib.heap.length := hwf.2 _ _ hs
  have hown : (deref lib.heap s).Parent ≠ some s :=
    fun h => Nat.lt_irrefl s (hwf.1 s s h)
  have hm1 : (req.Method == "POST" && req.inherit != "") = false := by
    rw [hm]; rfl
  refine ⟨_, prepareStore_plain dve lib req b hm1 hb, ?_⟩
  have hid : (deref (lib.heap ++
      [unmarshal { Collection.zero with ID := req.collectionID, Modified := req.now } b])
      lib.heap.length).ID = req.collectionID := by
    rw [deref_append_length]
    rcases hidb with h | h <;> simp [unmarshal, h]
  have hbs : deref (lib.heap ++
      [unmarshal { Collection.zero with ID := req.collectionID, Modified := req.now } b]) s
      = deref lib.heap s := deref_append_left _ _ _ hlt
  obtain ⟨hc, hidU, hsU, hlen⟩ := updateParentRelation_keeps dve
    { heap := lib.heap ++
        [unmarshal { Collection.zero with ID := req.collectionID, Modified := req.now } b],
      Collections := lib.Collections }
    lib.heap.length s b.Parent (Nat.ne_of_lt hlt)
    (by rw [hid]; exact hs) hpar (by rw [hbs]; exact hown)
  rw [keepChildren_self _ _ (by rw [hlen]; simp)]
  have hgU : GetItem (updateParentRelation dve
      { heap := lib.heap ++
          [unmarshal { Collection.zero with ID := req.collectionID, Modified := req.now } b],
        Collections := lib.Collections }
      lib.heap.length b.Parent)
      (deref (updateParentRelation dve
      { heap := lib.heap ++
          [unmarshal { Collection.zero with ID := req.collectionID, Modified := req.now } b],
        Collections := lib.Collections }
      lib.heap.length b.Parent).heap lib.heap.length).ID = some s := by
    rw [hidU, hid]
    unfold GetItem
    rw [hc]
    exact hs
  simp only [hgU, hsU, hbs]

theorem children_kept_on_update_witness :
    ∃ lib1, prepareStore ptrOnly treeRABC (putBody "B" (Body.object renameB) 5)
        = Prepared.ready lib1 treeRABC.heap.length ∧
      (deref lib1.heap treeRABC.heap.length).Children = (deref treeRABC.heap 2).Children :=
  children_kept_on_update ptrOnly treeRABC (putBody "B" (Body.object renameB) 5) renameB 2
    (reachable_wellFormed acceptAll parseErrorStd ptrOnly
      [post "R" "" "R" 1, post "A" "R" "A" 2, post "B" "R" "B" 3, post "C" "B" "C" 4])
    (by decide) (by decide) (by decide) (by decide) (by decide)

theorem inherit_copy_fields_witness :
    ∃ lib1, inheritStep parentAndChild (postInherit "S" "Copy" "n" 3)
        = Prepared.ready lib1 parentAndChild.heap.length ∧
      deref lib1.heap parentAndChild.heap.length =
        { deref parentAndChild.heap 1 with ID := "", Children := [] } ∧
      (∀ p, p < parentAndChild.heap.length →
        deref lib1.heap p = deref parentAndChild.heap p) ∧
      deref lib1.heap 1 = deref parentAndChild.heap 1 ∧
      lib1.Collections = parentAndChild.Collections :=
  inherit_copy_fields parentAndChild (postInherit "S" "Copy" "n" 3) 1
    (by decide) (by decide) (by decide) (by decide)

end Facette
